import Mathlib

/- Verification of the sonic-go streaming adapter (sonic.go and the option
   constructors).  The adapter feeds byte buffers to an external audio
   engine (cgosonic, backed by the sonic C library) and serializes drained
   output to an io.Writer sink.  Engine and sink are external collaborators:
   they are modelled as response scripts consumed in call order, so every
   adapter function below is a deterministic function of the transformer
   state, the input buffer and the scripts.  Sample values are carried as
   their 16- or 32-bit little-endian wire words (Nat); the adapter never
   computes with sample values, it only moves them. -/

namespace Sonic

/-- Outcome of a Write, Flush or Close call, mirroring the error values of
sonic.go: success, ErrInvalid, ErrSonicFailed, ErrWrite, ErrInternal, or a
nil-pointer dereference of the destroyed stream handle (a Go runtime fault,
not an error return). -/
inductive Outcome where
  | ok
  | errInvalid
  | errSonic
  | errWrite
  | errInternal
  | panicNil
  deriving DecidableEq, Repr

/-- Predicate on outcomes that correspond to an error value actually
returned to the caller (sonic.go returns exactly these four error values;
panicNil is a runtime fault, not a return). -/
def isErrorReturn : Outcome → Bool
  | .errInvalid => true
  | .errSonic => true
  | .errWrite => true
  | .errInternal => true
  | _ => false

/-- AudioFormatPCM, 16-bit signed integer samples (sonic.go). -/
def AudioFormatPCM : Int := 1

/-- AudioFormatIEEEFloat, 32-bit IEEE 754 float samples (sonic.go). -/
def AudioFormatIEEEFloat : Int := 3

/-- SampleSize of an AudioFormat in bytes: 2 for PCM, 4 for float, 0 for any
other value (sonic.go, AudioFormat.SampleSize). -/
def SampleSize (f : Int) : Nat :=
  if f = AudioFormatPCM then 2
  else if f = AudioFormatIEEEFloat then 4
  else 0

/-- streamBufferSize, the byte size of the transformer scratch buffer
(sonic.go). -/
def streamBufferSize : Nat := 4096

/- The numeric range constants come from the vendored sonic.h, which is not
   under src/.  Modelled from the spec: volume in [0.01, 100], speed, pitch
   and rate in [0.05, 20], channels in [1, 32].  Real-valued bounds are
   represented as rationals; the option code only compares them. -/

/-- Modelled from the spec: SONIC_MIN_VOLUME. -/
def MIN_VOLUME : ℚ := 1 / 100

/-- Modelled from the spec: SONIC_MAX_VOLUME. -/
def MAX_VOLUME : ℚ := 100

/-- Modelled from the spec: SONIC_MIN_SPEED. -/
def MIN_SPEED : ℚ := 1 / 20

/-- Modelled from the spec: SONIC_MAX_SPEED. -/
def MAX_SPEED : ℚ := 20

/-- Modelled from the spec: SONIC_MIN_PITCH_SETTING. -/
def MIN_PITCH_SETTING : ℚ := 1 / 20

/-- Modelled from the spec: SONIC_MAX_PITCH_SETTING. -/
def MAX_PITCH_SETTING : ℚ := 20

/-- Modelled from the spec: SONIC_MIN_RATE. -/
def MIN_RATE : ℚ := 1 / 20

/-- Modelled from the spec: SONIC_MAX_RATE. -/
def MAX_RATE : ℚ := 20

/-- Modelled from the spec: SONIC_MIN_CHANNELS. -/
def MIN_CHANNELS : Int := 1

/-- Modelled from the spec: SONIC_MAX_CHANNELS. -/
def MAX_CHANNELS : Int := 32

/-- clamp from the option source file: constrain value into [lo, hi] by the
same two comparisons as the Go generic clamp. -/
def clamp {α : Type} [LinearOrder α] (value lo hi : α) : α :=
  if value < lo then lo
  else if value > hi then hi
  else value

/-- Transformer state (sonic.go struct).  The io.Writer reference and the
cgosonic.Stream handle are external; the model keeps what the adapter
branches on: streamOpen records whether t.stream is non-nil, bufAllocated
whether t.streamBuffer is non-nil.  numChannels is a Nat because the Go
field is only ever written by WithChannels, which clamps into [1, 32], or
left at its default 1. -/
structure Transformer where
  sampleRate : Int
  numChannels : Nat
  format : Int
  volume : Option ℚ
  speed : Option ℚ
  pitch : Option ℚ
  rate : Option ℚ
  quality : Option Int
  streamOpen : Bool
  bufAllocated : Bool
  deriving DecidableEq, Repr

/-- The six option constructors of the package (the Transformer fields are
unexported, so no option defined outside the package can reach them). -/
inductive Opt where
  | withChannels (channels : Int)
  | withVolume (volume : ℚ)
  | withSpeed (speed : ℚ)
  | withPitch (pitch : ℚ)
  | withRate (rate : ℚ)
  | withQuality
  deriving DecidableEq, Repr

/-- applyOptE runs one option closure on the transformer, mirroring the
bodies of WithChannels, WithVolume, WithSpeed, WithPitch, WithRate and
WithQuality; every branch of the source returns a nil error. -/
def applyOptE (o : Opt) (t : Transformer) : Except Unit Transformer :=
  match o with
  | .withChannels c =>
      .ok { t with numChannels := (clamp c MIN_CHANNELS MAX_CHANNELS).toNat }
  | .withVolume v => .ok { t with volume := some (clamp v MIN_VOLUME MAX_VOLUME) }
  | .withSpeed v => .ok { t with speed := some (clamp v MIN_SPEED MAX_SPEED) }
  | .withPitch v =>
      .ok { t with pitch := some (clamp v MIN_PITCH_SETTING MAX_PITCH_SETTING) }
  | .withRate v => .ok { t with rate := some (clamp v MIN_RATE MAX_RATE) }
  | .withQuality => .ok { t with quality := some 1 }

/-- applyOpts mirrors the option loop of NewTransformer: apply each option
in order, aborting on the first error. -/
def applyOpts (opts : List Opt) (t : Transformer) : Except Unit Transformer :=
  match opts with
  | [] => .ok t
  | o :: rest =>
      match applyOptE o t with
      | .error e => .error e
      | .ok t2 => applyOpts rest t2

/-- NewTransformer (sonic.go): validate the writer, the sample rate against
the engine bounds (minSR and maxSR stand for the engine constants, which sit
in the vendored sonic.h outside src/), and the format against the two
supported values; then apply the options and create the engine stream.
writerNil records whether the caller passed a nil io.Writer, createOk the
engine create result. -/
def NewTransformer (minSR maxSR : Int) (writerNil : Bool) (sampleRate : Int)
    (format : Int) (opts : List Opt) (createOk : Bool) : Option Transformer :=
  if writerNil then none
  else if sampleRate < minSR ∨ maxSR < sampleRate then none
  else if ¬ (format = AudioFormatPCM ∨ format = AudioFormatIEEEFloat) then none
  else
    match applyOpts opts
        { sampleRate := sampleRate, numChannels := 1, format := format,
          volume := none, speed := none, pitch := none, rate := none,
          quality := none, streamOpen := false, bufAllocated := false } with
    | .error _ => none
    | .ok t1 =>
        if createOk then some { t1 with streamOpen := true, bufAllocated := true }
        else none

/-- Result of Close: the updated transformer, the returned error (the source
always returns nil), and whether this call invoked DestroyStream or dropped
the scratch buffer. -/
structure CloseResult where
  t : Transformer
  err : Option Outcome
  destroyCalled : Bool
  bufReleased : Bool
  deriving DecidableEq, Repr

/-- Close (sonic.go): destroy the stream if non-nil, drop the scratch
buffer if non-nil, return nil. -/
def Close (t : Transformer) : CloseResult :=
  { t := { t with streamOpen := false, bufAllocated := false },
    err := none,
    destroyCalled := t.streamOpen,
    bufReleased := t.bufAllocated }

/-- word16OfBytes assembles the 16-bit wire word of two little-endian
bytes. -/
def word16OfBytes (b0 b1 : Nat) : Nat := b0 + 256 * b1

/-- word32OfBytes assembles the 32-bit wire word of four little-endian
bytes. -/
def word32OfBytes (b0 b1 b2 b3 : Nat) : Nat :=
  b0 + 256 * b1 + 65536 * b2 + 16777216 * b3

/-- bytesAsInt16Slice models the int16 view of a byte buffer taken by the
adapter (len(p)/2 samples; a trailing odd byte is not part of the view). -/
def bytesAsInt16Slice (p : List Nat) : List Nat :=
  match p with
  | b0 :: b1 :: rest => word16OfBytes b0 b1 :: bytesAsInt16Slice rest
  | _ => []

/-- bytesAsFloat32Slice models the float32 view of a byte buffer taken by
the adapter (len(p)/4 samples; trailing bytes beyond a multiple of 4 are
not part of the view). -/
def bytesAsFloat32Slice (p : List Nat) : List Nat :=
  match p with
  | b0 :: b1 :: b2 :: b3 :: rest =>
      word32OfBytes b0 b1 b2 b3 :: bytesAsFloat32Slice rest
  | _ => []

/-- le16 is the little-endian byte serialization of a 16-bit sample word, as
produced by binary.Write with binary.LittleEndian on an int16. -/
def le16 (w : Nat) : List Nat := [w % 256, w / 256 % 256]

/-- le32 is the little-endian byte serialization of a 32-bit sample word, as
produced by binary.Write with binary.LittleEndian on a float32. -/
def le32 (w : Nat) : List Nat :=
  [w % 256, w / 256 % 256, w / 65536 % 256, w / 16777216 % 256]

/-- serList serializes a sample batch to the byte sequence handed to the
sink. -/
def serList (ser : Nat → List Nat) (xs : List Nat) : List Nat :=
  (xs.map ser).flatten

/-- overwrite models copying data over the front of a fixed buffer: the
buffer keeps its length, its prefix is replaced by data (any excess of data
beyond the buffer is out of bounds and not observable through the
buffer). -/
def overwrite {α : Type} (buf data : List α) : List α :=
  data.take buf.length ++ buf.drop data.length

/-- Result of a Write call: the consumed byte count (numWrittenBytes), the
outcome, the trace of engine write calls (each records the sample slice
passed and the frame count argument size/numChannels), and the trace of
sample batches handed to binary.Write toward the sink. -/
structure WriteResult where
  consumed : Nat
  outcome : Outcome
  pushes : List (List Nat × Nat)
  sinkOut : List (List Nat)
  deriving DecidableEq, Repr

/-- Result of the inner drain loop of writeInt16 and writeFloat32: the
scratch buffer content after the loop, the unconsumed engine read script,
the unconsumed sink script, the batches handed to the sink, and whether
every sink write succeeded. -/
structure DrainResult where
  buf : List Nat
  reads : List (Int × List Nat)
  sinks : List Bool
  sinkOut : List (List Nat)
  sinkOk : Bool
  deriving DecidableEq, Repr

/-- scriptHead reads the next entry of a success script; an exhausted
script behaves as an always-succeeding collaborator. -/
def scriptHead (l : List Bool) : Bool :=
  match l with
  | [] => true
  | b :: _ => b

/-- drain models the inner for-loop of writeInt16 and writeFloat32: read
into the scratch buffer until the engine returns no samples; each read
result is a script entry (nRead, data) where data is what the engine copies
into the front of the buffer; each successful batch buf[0:nRead] goes to
the sink, and a failing sink write aborts immediately.  An exhausted read
script behaves as an engine with no more output. -/
def drain (buf : List Nat) (reads : List (Int × List Nat))
    (sinks : List Bool) : DrainResult :=
  match reads with
  | [] => ⟨buf, [], sinks, [], true⟩
  | (n, data) :: rest =>
      if n ≤ 0 then ⟨buf, rest, sinks, [], true⟩
      else
        let buf2 := overwrite buf data
        let batch := buf2.take n.toNat
        if scriptHead sinks then
          let r := drain buf2 rest sinks.tail
          ⟨r.buf, r.reads, r.sinks, batch :: r.sinkOut, r.sinkOk⟩
        else ⟨buf2, rest, sinks.tail, [batch], false⟩

/-- writeLoopF is the outer for-loop of writeInt16 and writeFloat32, made
structurally recursive on a fuel bound: each iteration takes a sub-chunk of
size min(len(samples), cap) samples, pushes it to the engine as
size/numChannels frames (a failed engine write aborts with ErrSonicFailed
and no byte accounting for the chunk), accounts size*sampleSize consumed
bytes, drains, and advances.  One iteration consumes at least one sample,
so with fuel ≥ len(samples) the fuel-exhausted case coincides with the
loop exit on an empty slice (size 0) and the function agrees with the Go
loop.  When the stream handle is nil the engine write dereferences it. -/
def writeLoopF (sampleSize cap nc : Nat) (streamOpen : Bool) :
    Nat → List Nat → List Nat → List Bool → List (Int × List Nat) →
    List Bool → Nat → WriteResult
  | 0, _, _, _, _, _, acc => ⟨acc, .ok, [], []⟩
  | fuel + 1, samples, buf, ews, reads, sinks, acc =>
      let size := min samples.length cap
      if size = 0 then ⟨acc, .ok, [], []⟩
      else if ¬ streamOpen then ⟨acc, .panicNil, [], []⟩
      else
        let chunk := samples.take size
        let frames := size / nc
        if scriptHead ews then
          let acc2 := acc + size * sampleSize
          let d := drain buf reads sinks
          if d.sinkOk then
            let r := writeLoopF sampleSize cap nc streamOpen fuel
              (samples.drop size) d.buf ews.tail d.reads d.sinks acc2
            ⟨r.consumed, r.outcome, (chunk, frames) :: r.pushes,
              d.sinkOut ++ r.sinkOut⟩
          else ⟨acc2, .errWrite, [(chunk, frames)], d.sinkOut⟩
        else ⟨acc, .errSonic, [(chunk, frames)], []⟩

/-- writeCore runs the write loop with sufficient fuel. -/
def writeCore (sampleSize cap nc : Nat) (streamOpen : Bool)
    (samples buf : List Nat) (ews : List Bool)
    (reads : List (Int × List Nat)) (sinks : List Bool) : WriteResult :=
  writeLoopF sampleSize cap nc streamOpen samples.length samples buf ews
    reads sinks 0

/-- writeInt16 (sonic.go): reject a byte length that is not a multiple of
the sample size, return success at once on an empty sample view, otherwise
run the chunked write loop.  buf0 is the current int16 view of the
transformer scratch buffer; ews, reads and sinks are the response scripts
of the engine write calls, the engine read calls and the sink writes. -/
def writeInt16 (t : Transformer) (p : List Nat) (buf0 : List Nat)
    (ews : List Bool) (reads : List (Int × List Nat))
    (sinks : List Bool) : WriteResult :=
  let sampleSize := SampleSize t.format
  let streamBufferSampleSize := streamBufferSize / sampleSize
  if p.length % sampleSize ≠ 0 then ⟨0, .errInvalid, [], []⟩
  else
    let samples := bytesAsInt16Slice p
    if samples.length = 0 then ⟨0, .ok, [], []⟩
    else
      writeCore sampleSize streamBufferSampleSize t.numChannels
        t.streamOpen samples buf0 ews reads sinks

/-- writeFloat32 (sonic.go): the float32 counterpart of writeInt16. -/
def writeFloat32 (t : Transformer) (p : List Nat) (buf0 : List Nat)
    (ews : List Bool) (reads : List (Int × List Nat))
    (sinks : List Bool) : WriteResult :=
  let sampleSize := SampleSize t.format
  let streamBufferSampleSize := streamBufferSize / sampleSize
  if p.length % sampleSize ≠ 0 then ⟨0, .errInvalid, [], []⟩
  else
    let samples := bytesAsFloat32Slice p
    if samples.length = 0 then ⟨0, .ok, [], []⟩
    else
      writeCore sampleSize streamBufferSampleSize t.numChannels
        t.streamOpen samples buf0 ews reads sinks

/-- Write (sonic.go): dispatch on the encoding selector; any other format
value hits the defensive ErrInternal branch. -/
def Write (t : Transformer) (p buf0 : List Nat) (ews : List Bool)
    (reads : List (Int × List Nat)) (sinks : List Bool) : WriteResult :=
  if t.format = AudioFormatPCM then writeInt16 t p buf0 ews reads sinks
  else if t.format = AudioFormatIEEEFloat then
    writeFloat32 t p buf0 ews reads sinks
  else ⟨0, .errInternal, [], []⟩

/-- One iteration record of the flush drain loop: the SamplesAvailable
result (the source queries it twice per iteration, for the loop condition
and for the allocation size, with no intervening engine mutation, so one
value models both calls), the read call result nRead, and the samples the
engine copies into the freshly allocated buffer. -/
structure FlushStep where
  avail : Int
  nRead : Int
  data : List Nat
  deriving DecidableEq, Repr

/-- Result of a Flush call: the outcome, the allocated buffer lengths (one
per loop iteration), the maxSamples arguments passed to the read calls,
the byte batches handed to the sink, and the engine write calls made
(flushInt16 and flushFloat32 contain no engine write, so this trace is
empty by construction). -/
structure FlushResult where
  outcome : Outcome
  allocs : List Nat
  readReqs : List Nat
  sinkOut : List (List Nat)
  pushes : List (List Nat × Nat)
  deriving DecidableEq, Repr

/-- flushLoop models the drain loop of flushInt16 and flushFloat32: while
SamplesAvailable is positive, allocate a zeroed buffer of that length, read
with maxSamples equal to the buffer length, fail with ErrSonicFailed when
the read returns no samples, otherwise serialize buffer[0:nRead] to the
sink and continue; a failing sink write aborts immediately.  An exhausted
step script behaves as an engine reporting no available samples. -/
def flushLoop (ser : Nat → List Nat) (steps : List FlushStep)
    (sinks : List Bool) : FlushResult :=
  match steps with
  | [] => ⟨.ok, [], [], [], []⟩
  | s :: rest =>
      if s.avail ≤ 0 then ⟨.ok, [], [], [], []⟩
      else
        let bufLen := s.avail.toNat
        let buffer : List Nat := List.replicate bufLen 0
        if s.nRead ≤ 0 then ⟨.errSonic, [bufLen], [bufLen], [], []⟩
        else
          let buf2 := overwrite buffer s.data
          let batch := serList ser (buf2.take s.nRead.toNat)
          if scriptHead sinks then
            let r := flushLoop ser rest sinks.tail
            ⟨r.outcome, bufLen :: r.allocs, bufLen :: r.readReqs,
              batch :: r.sinkOut, r.pushes⟩
          else ⟨.errWrite, [bufLen], [bufLen], [batch], []⟩

/-- flushInt16 (sonic.go): flush the engine stream (a zero return aborts
with ErrSonicFailed), then drain every available sample to the sink.  On a
destroyed handle the FlushStream call dereferences nil. -/
def flushInt16 (t : Transformer) (flushOk : Bool) (steps : List FlushStep)
    (sinks : List Bool) : FlushResult :=
  if ¬ t.streamOpen then ⟨.panicNil, [], [], [], []⟩
  else if ¬ flushOk then ⟨.errSonic, [], [], [], []⟩
  else flushLoop le16 steps sinks

/-- flushFloat32 (sonic.go): the float32 counterpart of flushInt16. -/
def flushFloat32 (t : Transformer) (flushOk : Bool)
    (steps : List FlushStep) (sinks : List Bool) : FlushResult :=
  if ¬ t.streamOpen then ⟨.panicNil, [], [], [], []⟩
  else if ¬ flushOk then ⟨.errSonic, [], [], [], []⟩
  else flushLoop le32 steps sinks

/-- Flush (sonic.go): dispatch on the encoding selector; any other format
value hits the defensive ErrInternal branch. -/
def Flush (t : Transformer) (flushOk : Bool) (steps : List FlushStep)
    (sinks : List Bool) : FlushResult :=
  if t.format = AudioFormatPCM then flushInt16 t flushOk steps sinks
  else if t.format = AudioFormatIEEEFloat then
    flushFloat32 t flushOk steps sinks
  else ⟨.errInternal, [], [], [], []⟩

/-- Modelled from the spec: the engine write contract pushes frameCount
frames, that is the first frameCount * numChannels samples of the supplied
slice (the sonic engine sources are not under src/).  enginePushed applied
to one entry of the push trace gives the samples that actually enter the
engine from that sub-chunk. -/
def enginePushed (nc : Nat) (q : List Nat × Nat) : List Nat :=
  q.1.take (q.2 * nc)

/-- Modelled from the spec: a flush drain step conforms to the engine read
contract for channel count nc when the read returns the whole availability
(read never blocks and maxSamples is the full buffer) and supplies
numChannels samples per frame read. -/
def StepConforms (nc : Nat) (s : FlushStep) : Prop :=
  s.nRead = s.avail ∧ s.data.length = s.nRead.toNat * nc

/-- activePrefix collects the flush iterations actually run: the loop stops
at the first SamplesAvailable result that is not positive. -/
def activePrefix : List FlushStep → List FlushStep
  | [] => []
  | s :: rest => if 0 < s.avail then s :: activePrefix rest else []

/-- samplesView is the typed sample view Write takes of the byte buffer in
the active encoding. -/
def samplesView (f : Int) (p : List Nat) : List Nat :=
  if f = AudioFormatPCM then bytesAsInt16Slice p else bytesAsFloat32Slice p

/-- tMono is an active 16-bit mono transformer in the state produced by a
successful NewTransformer call with default options. -/
def tMono : Transformer :=
  { sampleRate := 44100, numChannels := 1, format := AudioFormatPCM,
    volume := none, speed := none, pitch := none, rate := none,
    quality := none, streamOpen := true, bufAllocated := true }

/-- tStereo is tMono with two channels, the state produced by a successful
NewTransformer call with WithChannels 2. -/
def tStereo : Transformer := { tMono with numChannels := 2 }

theorem samplesView_pcm (p : List Nat) :
    samplesView AudioFormatPCM p = bytesAsInt16Slice p := rfl

theorem samplesView_float (p : List Nat) :
    samplesView AudioFormatIEEEFloat p = bytesAsFloat32Slice p := rfl

theorem bytesAsInt16Slice_length : ∀ p : List Nat,
    (bytesAsInt16Slice p).length = p.length / 2
  | [] => by simp [bytesAsInt16Slice]
  | [b] => by simp [bytesAsInt16Slice]
  | _ :: _ :: rest => by
      simp only [bytesAsInt16Slice, List.length_cons]
      rw [bytesAsInt16Slice_length rest]
      omega

theorem bytesAsFloat32Slice_length : ∀ p : List Nat,
    (bytesAsFloat32Slice p).length = p.length / 4
  | [] => by simp [bytesAsFloat32Slice]
  | [b] => by simp [bytesAsFloat32Slice]
  | [b, c] => by simp [bytesAsFloat32Slice]
  | [b, c, d] => by simp [bytesAsFloat32Slice]
  | _ :: _ :: _ :: _ :: rest => by
      simp only [bytesAsFloat32Slice, List.length_cons]
      rw [bytesAsFloat32Slice_length rest]
      omega

theorem writeLoopF_zero (ss cap nc : Nat) (so : Bool) (samples buf ews reads
    sinks acc) :
    writeLoopF ss cap nc so 0 samples buf ews reads sinks acc =
      ⟨acc, .ok, [], []⟩ := rfl

theorem writeLoopF_break (ss cap nc : Nat) (so : Bool) (n : Nat)
    (samples buf ews reads sinks acc)
    (h0 : min samples.length cap = 0) :
    writeLoopF ss cap nc so (n + 1) samples buf ews reads sinks acc =
      ⟨acc, .ok, [], []⟩ := by
  simp [writeLoopF, h0]

theorem writeLoopF_closed (ss cap nc : Nat) (n : Nat)
    (samples buf ews reads sinks acc)
    (h0 : min samples.length cap ≠ 0) :
    writeLoopF ss cap nc false (n + 1) samples buf ews reads sinks acc =
      ⟨acc, .panicNil, [], []⟩ := by
  simp [writeLoopF, h0]

theorem writeLoopF_active (ss cap nc : Nat) (n : Nat)
    (samples buf ews reads sinks acc)
    (h0 : min samples.length cap ≠ 0) :
    writeLoopF ss cap nc true (n + 1) samples buf ews reads sinks acc =
      (if scriptHead ews then
        (if (drain buf reads sinks).sinkOk then
          ⟨(writeLoopF ss cap nc true n
              (samples.drop (min samples.length cap))
              (drain buf reads sinks).buf ews.tail
              (drain buf reads sinks).reads (drain buf reads sinks).sinks
              (acc + min samples.length cap * ss)).consumed,
            (writeLoopF ss cap nc true n
              (samples.drop (min samples.length cap))
              (drain buf reads sinks).buf ews.tail
              (drain buf reads sinks).reads (drain buf reads sinks).sinks
              (acc + min samples.length cap * ss)).outcome,
            (samples.take (min samples.length cap),
              min samples.length cap / nc) ::
              (writeLoopF ss cap nc true n
                (samples.drop (min samples.length cap))
                (drain buf reads sinks).buf ews.tail
                (drain buf reads sinks).reads (drain buf reads sinks).sinks
                (acc + min samples.length cap * ss)).pushes,
            (drain buf reads sinks).sinkOut ++
              (writeLoopF ss cap nc true n
                (samples.drop (min samples.length cap))
                (drain buf reads sinks).buf ews.tail
                (drain buf reads sinks).reads (drain buf reads sinks).sinks
                (acc + min samples.length cap * ss)).sinkOut⟩
        else
          ⟨acc + min samples.length cap * ss, .errWrite,
            [(samples.take (min samples.length cap),
              min samples.length cap / nc)],
            (drain buf reads sinks).sinkOut⟩)
      else
        ⟨acc, .errSonic,
          [(samples.take (min samples.length cap),
            min samples.length cap / nc)], []⟩) := by
  simp [writeLoopF, h0]

theorem writeLoopF_ok_consumed (ss cap nc : Nat) :
    ∀ fuel samples buf ews reads sinks acc, samples.length ≤ fuel →
      0 < cap →
      (writeLoopF ss cap nc true fuel samples buf ews reads sinks
        acc).outcome = .ok →
      (writeLoopF ss cap nc true fuel samples buf ews reads sinks
        acc).consumed = acc + ss * samples.length := by
  intro fuel
  induction fuel with
  | zero =>
      intro samples buf ews reads sinks acc hlen _ _
      have h0 : samples.length = 0 := Nat.le_zero.mp hlen
      simp [writeLoopF_zero, h0]
  | succ n ih =>
      intro samples buf ews reads sinks acc hlen hcap hok
      by_cases h0 : min samples.length cap = 0
      · have hsl : samples.length = 0 := by omega
        rw [writeLoopF_break ss cap nc true n samples buf ews reads sinks
          acc h0]
        simp [hsl]
      · rw [writeLoopF_active ss cap nc n samples buf ews reads sinks acc
          h0] at hok ⊢
        by_cases hew : scriptHead ews = true
        · simp only [hew, if_true] at hok ⊢
          by_cases hsk : (drain buf reads sinks).sinkOk = true
          · simp only [hsk, if_true] at hok ⊢
            have hsize : 0 < min samples.length cap := Nat.pos_of_ne_zero h0
            have hsl : min samples.length cap ≤ samples.length :=
              Nat.min_le_left _ _
            have hdrop : (samples.drop (min samples.length cap)).length ≤ n := by
              simp only [List.length_drop]; omega
            rw [ih (samples.drop (min samples.length cap))
              (drain buf reads sinks).buf ews.tail
              (drain buf reads sinks).reads (drain buf reads sinks).sinks
              (acc + min samples.length cap * ss) hdrop hcap hok]
            simp only [List.length_drop]
            have h2 : min samples.length cap * ss ≤ ss * samples.length := by
              rw [Nat.mul_comm]
              exact Nat.mul_le_mul_left _ hsl
            rw [Nat.mul_sub, Nat.mul_comm ss (min samples.length cap)]
            omega
          · simp [hsk] at hok
        · simp [hew] at hok

theorem writeLoopF_not_internal (ss cap nc : Nat) :
    ∀ fuel (so : Bool) samples buf ews reads sinks acc,
      (writeLoopF ss cap nc so fuel samples buf ews reads sinks
        acc).outcome ≠ .errInternal := by
  intro fuel
  induction fuel with
  | zero =>
      intro so samples buf ews reads sinks acc
      simp [writeLoopF_zero]
  | succ n ih =>
      intro so samples buf ews reads sinks acc
      by_cases h0 : min samples.length cap = 0
      · rw [writeLoopF_break ss cap nc so n samples buf ews reads sinks
          acc h0]
        simp
      · cases so with
        | false =>
            rw [writeLoopF_closed ss cap nc n samples buf ews reads sinks
              acc h0]
            simp
        | true =>
            rw [writeLoopF_active ss cap nc n samples buf ews reads sinks
              acc h0]
            by_cases hew : scriptHead ews = true
            · simp only [hew, if_true]
              by_cases hsk : (drain buf reads sinks).sinkOk = true
              · simp only [hsk, if_true]
                exact ih true _ _ _ _ _ _
              · simp [hsk]
            · simp [hew]

theorem writeLoopF_pushes_shape (ss cap nc : Nat) :
    ∀ fuel samples buf ews reads sinks acc,
      ∀ q ∈ (writeLoopF ss cap nc true fuel samples buf ews reads sinks
        acc).pushes,
        0 < q.1.length ∧ q.1.length ≤ cap ∧ q.2 = q.1.length / nc := by
  intro fuel
  induction fuel with
  | zero =>
      intro samples buf ews reads sinks acc q hq
      simp [writeLoopF_zero] at hq
  | succ n ih =>
      intro samples buf ews reads sinks acc q hq
      by_cases h0 : min samples.length cap = 0
      · rw [writeLoopF_break ss cap nc true n samples buf ews reads sinks
          acc h0] at hq
        simp at hq
      · rw [writeLoopF_active ss cap nc n samples buf ews reads sinks acc
          h0] at hq
        have hlen : (samples.take (min samples.length cap)).length =
            min samples.length cap := by
          simp [List.length_take, Nat.min_assoc]
        by_cases hew : scriptHead ews = true
        · simp only [hew, if_true] at hq
          by_cases hsk : (drain buf reads sinks).sinkOk = true
          · simp only [hsk, if_true] at hq
            simp only [List.mem_cons] at hq
            rcases hq with hq | hq
            · subst hq
              refine ⟨?_, ?_, ?_⟩ <;> simp [hlen] <;> omega
            · exact ih _ _ _ _ _ _ q hq
          · simp [hsk] at hq
            subst hq
            refine ⟨?_, ?_, ?_⟩ <;> simp [hlen] <;> omega
        · simp [hew] at hq
          subst hq
          refine ⟨?_, ?_, ?_⟩ <;> simp [hlen] <;> omega

theorem writeLoopF_errWrite_consumed (ss cap nc : Nat) :
    ∀ fuel samples buf ews reads sinks acc,
      (writeLoopF ss cap nc true fuel samples buf ews reads sinks
        acc).outcome = .errWrite →
      (writeLoopF ss cap nc true fuel samples buf ews reads sinks
        acc).consumed = acc + ss *
        (((writeLoopF ss cap nc true fuel samples buf ews reads sinks
          acc).pushes.map fun q => q.1.length).sum) := by
  intro fuel
  induction fuel with
  | zero =>
      intro samples buf ews reads sinks acc hk
      simp [writeLoopF_zero] at hk
  | succ n ih =>
      intro samples buf ews reads sinks acc hk
      by_cases h0 : min samples.length cap = 0
      · rw [writeLoopF_break ss cap nc true n samples buf ews reads sinks
          acc h0] at hk
        simp at hk
      · rw [writeLoopF_active ss cap nc n samples buf ews reads sinks acc
          h0] at hk ⊢
        have hlen : (samples.take (min samples.length cap)).length =
            min samples.length cap := by
          simp [List.length_take, Nat.min_assoc]
        by_cases hew : scriptHead ews = true
        · simp only [hew, if_true] at hk ⊢
          by_cases hsk : (drain buf reads sinks).sinkOk = true
          · simp only [hsk, if_true] at hk ⊢
            rw [ih _ _ _ _ _ _ hk]
            simp only [List.map_cons, List.sum_cons, hlen, Nat.mul_add]
            rw [Nat.mul_comm ss (min samples.length cap)]
            omega
          · rw [if_neg hsk] at hk ⊢
            simp only [List.map_cons, List.map_nil, List.sum_cons,
              List.sum_nil, hlen, Nat.add_zero]
            rw [Nat.mul_comm ss (min samples.length cap)]
        · simp [hew] at hk

theorem writeLoopF_ok_flatten (ss cap nc : Nat) :
    ∀ fuel samples buf ews reads sinks acc, samples.length ≤ fuel →
      0 < cap →
      (writeLoopF ss cap nc true fuel samples buf ews reads sinks
        acc).outcome = .ok →
      ((writeLoopF ss cap nc true fuel samples buf ews reads sinks
        acc).pushes.map Prod.fst).flatten = samples := by
  intro fuel
  induction fuel with
  | zero =>
      intro samples buf ews reads sinks acc hlen _ _
      have h0 : samples.length = 0 := Nat.le_zero.mp hlen
      rw [writeLoopF_zero]
      simp [List.length_eq_zero.mp h0]
  | succ n ih =>
      intro samples buf ews reads sinks acc hlen hcap hok
      by_cases h0 : min samples.length cap = 0
      · have hsl : samples.length = 0 := by omega
        rw [writeLoopF_break ss cap nc true n samples buf ews reads sinks
          acc h0]
        simp [List.length_eq_zero.mp hsl]
      · rw [writeLoopF_active ss cap nc n samples buf ews reads sinks acc
          h0] at hok ⊢
        by_cases hew : scriptHead ews = true
        · simp only [hew, if_true] at hok ⊢
          by_cases hsk : (drain buf reads sinks).sinkOk = true
          · simp only [hsk, if_true] at hok ⊢
            have hdrop : (samples.drop (min samples.length cap)).length ≤ n := by
              simp only [List.length_drop]
              omega
            simp only [List.map_cons, List.flatten_cons]
            rw [ih _ _ _ _ _ _ hdrop hcap hok]
            exact List.take_append_drop _ _
          · simp [hsk] at hok
        · simp [hew] at hok

theorem writeLoopF_pushes_dvd (ss cap nc : Nat) :
    ∀ fuel samples buf ews reads sinks acc,
      nc ∣ cap → nc ∣ samples.length →
      ∀ q ∈ (writeLoopF ss cap nc true fuel samples buf ews reads sinks
        acc).pushes, nc ∣ q.1.length := by
  intro fuel
  induction fuel with
  | zero =>
      intro samples buf ews reads sinks acc _ _ q hq
      simp [writeLoopF_zero] at hq
  | succ n ih =>
      intro samples buf ews reads sinks acc hdc hds q hq
      by_cases h0 : min samples.length cap = 0
      · rw [writeLoopF_break ss cap nc true n samples buf ews reads sinks
          acc h0] at hq
        simp at hq
      · rw [writeLoopF_active ss cap nc n samples buf ews reads sinks acc
          h0] at hq
        have hlen : (samples.take (min samples.length cap)).length =
            min samples.length cap := by
          simp [List.length_take, Nat.min_assoc]
        have hmin : nc ∣ min samples.length cap := by
          rcases Nat.le_total samples.length cap with h | h
          · rw [Nat.min_eq_left h]; exact hds
          · rw [Nat.min_eq_right h]; exact hdc
        have hdrop : nc ∣ (samples.drop (min samples.length cap)).length := by
          simp only [List.length_drop]
          exact Nat.dvd_sub' hds hmin
        by_cases hew : scriptHead ews = true
        · simp only [hew, if_true] at hq
          by_cases hsk : (drain buf reads sinks).sinkOk = true
          · simp only [hsk, if_true, List.mem_cons] at hq
            rcases hq with hq | hq
            · subst hq; simpa [hlen] using hmin
            · exact ih _ _ _ _ _ _ hdc hdrop q hq
          · simp [hsk] at hq
            subst hq; simpa [hlen] using hmin
        · simp [hew] at hq
          subst hq; simpa [hlen] using hmin

theorem writeLoopF_closed_run (ss cap nc : Nat) (fuel : Nat)
    (samples buf ews reads sinks acc)
    (hs : 0 < samples.length) (hf : samples.length ≤ fuel) (hc : 0 < cap) :
    writeLoopF ss cap nc false fuel samples buf ews reads sinks acc =
      ⟨acc, .panicNil, [], []⟩ := by
  cases fuel with
  | zero => omega
  | succ n =>
      have h0 : min samples.length cap ≠ 0 := by
        have := Nat.lt_min.mpr ⟨hs, hc⟩
        omega
      exact writeLoopF_closed ss cap nc n samples buf ews reads sinks acc h0

theorem overwrite_full {α : Type} (buf data : List α)
    (h : data.length = buf.length) : overwrite buf data = data := by
  unfold overwrite
  rw [← h, List.take_length, h, List.drop_length, List.append_nil]

theorem flushLoop_not_internal (ser : Nat → List Nat) :
    ∀ steps sinks, (flushLoop ser steps sinks).outcome ≠ .errInternal := by
  intro steps
  induction steps with
  | nil => intro sinks; simp [flushLoop]
  | cons s rest ih =>
      intro sinks
      by_cases ha : s.avail ≤ 0
      · simp [flushLoop, ha]
      · by_cases hn : s.nRead ≤ 0
        · simp [flushLoop, ha, hn]
        · by_cases hsk : scriptHead sinks = true
          · simp only [flushLoop, if_neg ha, if_neg hn, hsk, if_true]
            exact ih sinks.tail
          · simp [flushLoop, ha, hn, hsk]

theorem flushLoop_pushes (ser : Nat → List Nat) :
    ∀ steps sinks, (flushLoop ser steps sinks).pushes = [] := by
  intro steps
  induction steps with
  | nil => intro sinks; simp [flushLoop]
  | cons s rest ih =>
      intro sinks
      by_cases ha : s.avail ≤ 0
      · simp [flushLoop, ha]
      · by_cases hn : s.nRead ≤ 0
        · simp [flushLoop, ha, hn]
        · by_cases hsk : scriptHead sinks = true
          · simp only [flushLoop, if_neg ha, if_neg hn, hsk, if_true]
            exact ih sinks.tail
          · simp [flushLoop, ha, hn, hsk]

theorem flushLoop_conform_mono (ser : Nat → List Nat) :
    ∀ steps : List FlushStep, (∀ s ∈ steps, StepConforms 1 s) →
      (flushLoop ser steps []).outcome = .ok ∧
      (flushLoop ser steps []).allocs =
        (activePrefix steps).map (fun s => s.avail.toNat) ∧
      (flushLoop ser steps []).readReqs =
        (activePrefix steps).map (fun s => s.avail.toNat) ∧
      (flushLoop ser steps []).sinkOut =
        (activePrefix steps).map (fun s => serList ser s.data) := by
  intro steps
  induction steps with
  | nil => intro _; simp [flushLoop, activePrefix]
  | cons s rest ih =>
      intro hconf
      have hc : StepConforms 1 s := hconf s (List.mem_cons_self _ _)
      obtain ⟨hread, hdata⟩ := hc
      by_cases ha : s.avail ≤ 0
      · have hact : activePrefix (s :: rest) = [] := by
          simp [activePrefix, not_lt.mpr ha]
        simp [flushLoop, ha, hact]
      · have hn : ¬ s.nRead ≤ 0 := by rw [hread]; exact ha
        have hact : activePrefix (s :: rest) = s :: activePrefix rest := by
          simp [activePrefix, not_le.mp ha]
        have hdlen : s.data.length = (List.replicate s.avail.toNat
            (0 : Nat)).length := by
          simp [hdata, hread]
        have hover : overwrite (List.replicate s.avail.toNat (0 : Nat))
            s.data = s.data := overwrite_full _ _ hdlen
        have hlen2 : s.data.length = s.avail.toNat := by
          rw [hdata, hread, Nat.mul_one]
        have htake : (overwrite (List.replicate s.avail.toNat (0 : Nat))
            s.data).take s.nRead.toNat = s.data := by
          rw [hover, hread, ← hlen2, List.take_length]
        obtain ⟨io, ia, ir, is'⟩ := ih (fun q hq => hconf q
          (List.mem_cons_of_mem _ hq))
        refine ⟨?_, ?_, ?_, ?_⟩ <;>
          simp only [flushLoop, if_neg ha, if_neg hn, scriptHead, if_true,
            List.tail_nil, hact, List.map_cons, htake, io, ia, ir, is']

theorem flushLoop_sink_abort (ser : Nat → List Nat) (s : FlushStep)
    (rest : List FlushStep) (srest : List Bool)
    (ha : 0 < s.avail) (hn : 0 < s.nRead) :
    (flushLoop ser (s :: rest) (false :: srest)).outcome = .errWrite ∧
    (flushLoop ser (s :: rest) (false :: srest)).sinkOut.length = 1 := by
  have ha' : ¬ s.avail ≤ 0 := not_le.mpr ha
  have hn' : ¬ s.nRead ≤ 0 := not_le.mpr hn
  simp [flushLoop, ha', hn', scriptHead]

theorem applyOptE_ok (o : Opt) (t : Transformer) :
    ∃ t2, applyOptE o t = .ok t2 ∧ t2.format = t.format ∧
      t2.streamOpen = t.streamOpen := by
  cases o <;> exact ⟨_, rfl, rfl, rfl⟩

theorem applyOpts_format : ∀ (opts : List Opt) (t t2 : Transformer),
    applyOpts opts t = .ok t2 → t2.format = t.format := by
  intro opts
  induction opts with
  | nil =>
      intro t t2 h
      simp [applyOpts] at h
      rw [h]
  | cons o rest ih =>
      intro t t2 h
      obtain ⟨t1, he, hf, _⟩ := applyOptE_ok o t
      rw [applyOpts, he] at h
      rw [ih t1 t2 h, hf]

theorem NewTransformer_shape (minSR maxSR : Int) (writerNil : Bool)
    (sampleRate format : Int) (opts : List Opt) (createOk : Bool)
    (t : Transformer)
    (h : NewTransformer minSR maxSR writerNil sampleRate format opts
      createOk = some t) :
    t.format = format ∧
    (format = AudioFormatPCM ∨ format = AudioFormatIEEEFloat) ∧
    t.streamOpen = true := by
  unfold NewTransformer at h
  by_cases h1 : writerNil = true
  · simp [h1] at h
  · by_cases h2 : sampleRate < minSR ∨ maxSR < sampleRate
    · simp [h1, h2] at h
    · by_cases h3 : format = AudioFormatPCM ∨ format = AudioFormatIEEEFloat
      · have h3' : ¬ ¬ (format = AudioFormatPCM ∨
            format = AudioFormatIEEEFloat) := not_not_intro h3
        rcases he : applyOpts opts
          { sampleRate := sampleRate, numChannels := 1, format := format,
            volume := none, speed := none, pitch := none, rate := none,
            quality := none, streamOpen := false, bufAllocated := false } with
          e | t1
        · simp [h1, h2, h3', he] at h
        · by_cases h4 : createOk = true
          · simp only [if_neg h1, if_neg h2, if_neg h3', he, if_pos h4,
              Option.some.injEq] at h
            have hf := applyOpts_format opts _ t1 he
            subst h
            exact ⟨hf, h3, rfl⟩
          · simp [h1, h2, h3', he, h4] at h
      · simp [h1, h2, h3] at h

theorem clamp_spec {α : Type} [LinearOrder α] (value lo hi : α)
    (h : lo ≤ hi) :
    lo ≤ clamp value lo hi ∧ clamp value lo hi ≤ hi ∧
    (value < lo → clamp value lo hi = lo) ∧
    (hi < value → clamp value lo hi = hi) ∧
    (lo ≤ value → value ≤ hi → clamp value lo hi = value) := by
  refine ⟨?_, ?_, ?_, ?_, ?_⟩ <;> unfold clamp
  · split_ifs with h1 h2
    · exact le_refl lo
    · exact h
    · exact not_lt.mp h1
  · split_ifs with h1 h2
    · exact h
    · exact le_refl hi
    · exact not_lt.mp h2
  · intro hv; rw [if_pos hv]
  · intro hv
    have hnl : ¬ value < lo := not_lt.mpr (le_of_lt (lt_of_le_of_lt h hv))
    rw [if_neg hnl, if_pos hv]
  · intro h1 h2
    rw [if_neg (not_lt.mpr h1), if_neg (not_lt.mpr h2)]

theorem SampleSize_pcm : SampleSize AudioFormatPCM = 2 := rfl

theorem SampleSize_float : SampleSize AudioFormatIEEEFloat = 4 := rfl

theorem writeInt16_eq (t : Transformer) (p buf0 : List Nat)
    (ews : List Bool) (reads : List (Int × List Nat)) (sinks : List Bool)
    (hf : t.format = AudioFormatPCM) (hp : p.length % 2 = 0) :
    writeInt16 t p buf0 ews reads sinks =
      if (bytesAsInt16Slice p).length = 0 then ⟨0, .ok, [], []⟩
      else writeCore 2 2048 t.numChannels t.streamOpen
        (bytesAsInt16Slice p) buf0 ews reads sinks := by
  simp [writeInt16, hf, SampleSize, AudioFormatPCM, AudioFormatIEEEFloat,
    streamBufferSize, hp]

theorem writeFloat32_eq (t : Transformer) (p buf0 : List Nat)
    (ews : List Bool) (reads : List (Int × List Nat)) (sinks : List Bool)
    (hf : t.format = AudioFormatIEEEFloat) (hp : p.length % 4 = 0) :
    writeFloat32 t p buf0 ews reads sinks =
      if (bytesAsFloat32Slice p).length = 0 then ⟨0, .ok, [], []⟩
      else writeCore 4 1024 t.numChannels t.streamOpen
        (bytesAsFloat32Slice p) buf0 ews reads sinks := by
  simp [writeFloat32, hf, SampleSize, AudioFormatPCM, AudioFormatIEEEFloat,
    streamBufferSize, hp]

theorem Write_pcm (t : Transformer) (p buf0 : List Nat) (ews : List Bool)
    (reads : List (Int × List Nat)) (sinks : List Bool)
    (hf : t.format = AudioFormatPCM) :
    Write t p buf0 ews reads sinks = writeInt16 t p buf0 ews reads sinks := by
  simp [Write, hf]

theorem Write_float (t : Transformer) (p buf0 : List Nat) (ews : List Bool)
    (reads : List (Int × List Nat)) (sinks : List Bool)
    (hf : t.format = AudioFormatIEEEFloat) :
    Write t p buf0 ews reads sinks =
      writeFloat32 t p buf0 ews reads sinks := by
  simp [Write, hf, AudioFormatPCM, AudioFormatIEEEFloat]

theorem Flush_pcm (t : Transformer) (flushOk : Bool)
    (steps : List FlushStep) (sinks : List Bool)
    (hf : t.format = AudioFormatPCM) :
    Flush t flushOk steps sinks = flushInt16 t flushOk steps sinks := by
  simp [Flush, hf]

theorem Flush_float (t : Transformer) (flushOk : Bool)
    (steps : List FlushStep) (sinks : List Bool)
    (hf : t.format = AudioFormatIEEEFloat) :
    Flush t flushOk steps sinks = flushFloat32 t flushOk steps sinks := by
  simp [Flush, hf, AudioFormatPCM, AudioFormatIEEEFloat]

/-- C5: Close is idempotent and never fails: the first call destroys the
engine handle and releases the scratch buffer, every subsequent call is a
no-op with no double-release, and every call to Close returns no error
regardless of the transformer state. -/
theorem claim5_close_idempotent (t : Transformer) :
    (Close t).err = none ∧
    (Close t).t.streamOpen = false ∧
    (Close t).t.bufAllocated = false ∧
    (Close t).destroyCalled = t.streamOpen ∧
    (Close t).bufReleased = t.bufAllocated ∧
    (Close (Close t).t).t = (Close t).t ∧
    (Close (Close t).t).err = none ∧
    (Close (Close t).t).destroyCalled = false ∧
    (Close (Close t).t).bufReleased = false :=
  ⟨rfl, rfl, rfl, rfl, rfl, rfl, rfl, rfl, rfl⟩

/-- C6: a Write whose byte length is not a multiple of the active sample
size (2 for PCM, 4 for float) returns ErrInvalid with 0 consumed bytes and
no engine or sink interaction. -/
theorem claim6_misaligned_rejected (t : Transformer) (p buf0 : List Nat)
    (ews : List Bool) (reads : List (Int × List Nat)) (sinks : List Bool)
    (hf : t.format = AudioFormatPCM ∨ t.format = AudioFormatIEEEFloat)
    (hp : p.length % SampleSize t.format ≠ 0) :
    Write t p buf0 ews reads sinks = ⟨0, .errInvalid, [], []⟩ := by
  rcases hf with hf | hf
  · rw [Write_pcm t p buf0 ews reads sinks hf]
    rw [hf, SampleSize_pcm] at hp
    simp [writeInt16, hf, SampleSize, AudioFormatPCM, AudioFormatIEEEFloat,
      hp]
  · rw [Write_float t p buf0 ews reads sinks hf]
    rw [hf, SampleSize_float] at hp
    simp [writeFloat32, hf, SampleSize, AudioFormatPCM,
      AudioFormatIEEEFloat, hp]

/-- C7: writing a zero-length buffer to an active transformer returns
success with 0 consumed bytes and no engine or sink interaction. -/
theorem claim7_empty_write (t : Transformer) (buf0 : List Nat)
    (ews : List Bool) (reads : List (Int × List Nat)) (sinks : List Bool)
    (hf : t.format = AudioFormatPCM ∨ t.format = AudioFormatIEEEFloat)
    (ho : t.streamOpen = true) :
    Write t [] buf0 ews reads sinks = ⟨0, .ok, [], []⟩ := by
  rcases hf with hf | hf
  · rw [Write_pcm t [] buf0 ews reads sinks hf]
    simp [writeInt16, hf, SampleSize, AudioFormatPCM, AudioFormatIEEEFloat,
      bytesAsInt16Slice]
  · rw [Write_float t [] buf0 ews reads sinks hf]
    simp [writeFloat32, hf, SampleSize, AudioFormatPCM,
      AudioFormatIEEEFloat, bytesAsFloat32Slice]

/-- C8: every configuration setter (channels, volume, speed, pitch, rate)
is infallible and stores the input clamped to the nearest bound of its
legal range; values below the minimum are stored as the minimum, values
above the maximum as the maximum, in-range values unchanged. -/
theorem claim8_setters_clamp (t : Transformer) (c : Int) (v : ℚ) :
    (∃ t2, applyOptE (.withChannels c) t = .ok t2 ∧
      t2.numChannels = (clamp c MIN_CHANNELS MAX_CHANNELS).toNat ∧
      1 ≤ t2.numChannels ∧ t2.numChannels ≤ 32 ∧
      (c < MIN_CHANNELS → t2.numChannels = 1) ∧
      (MAX_CHANNELS < c → t2.numChannels = 32)) ∧
    (∃ t2, applyOptE (.withVolume v) t = .ok t2 ∧
      t2.volume = some (clamp v MIN_VOLUME MAX_VOLUME) ∧
      MIN_VOLUME ≤ clamp v MIN_VOLUME MAX_VOLUME ∧
      clamp v MIN_VOLUME MAX_VOLUME ≤ MAX_VOLUME ∧
      (v < MIN_VOLUME → clamp v MIN_VOLUME MAX_VOLUME = MIN_VOLUME) ∧
      (MAX_VOLUME < v → clamp v MIN_VOLUME MAX_VOLUME = MAX_VOLUME) ∧
      (MIN_VOLUME ≤ v → v ≤ MAX_VOLUME →
        clamp v MIN_VOLUME MAX_VOLUME = v)) ∧
    (∃ t2, applyOptE (.withSpeed v) t = .ok t2 ∧
      t2.speed = some (clamp v MIN_SPEED MAX_SPEED) ∧
      MIN_SPEED ≤ clamp v MIN_SPEED MAX_SPEED ∧
      clamp v MIN_SPEED MAX_SPEED ≤ MAX_SPEED ∧
      (v < MIN_SPEED → clamp v MIN_SPEED MAX_SPEED = MIN_SPEED) ∧
      (MAX_SPEED < v → clamp v MIN_SPEED MAX_SPEED = MAX_SPEED) ∧
      (MIN_SPEED ≤ v → v ≤ MAX_SPEED → clamp v MIN_SPEED MAX_SPEED = v)) ∧
    (∃ t2, applyOptE (.withPitch v) t = .ok t2 ∧
      t2.pitch = some (clamp v MIN_PITCH_SETTING MAX_PITCH_SETTING) ∧
      MIN_PITCH_SETTING ≤ clamp v MIN_PITCH_SETTING MAX_PITCH_SETTING ∧
      clamp v MIN_PITCH_SETTING MAX_PITCH_SETTING ≤ MAX_PITCH_SETTING ∧
      (v < MIN_PITCH_SETTING →
        clamp v MIN_PITCH_SETTING MAX_PITCH_SETTING = MIN_PITCH_SETTING) ∧
      (MAX_PITCH_SETTING < v →
        clamp v MIN_PITCH_SETTING MAX_PITCH_SETTING = MAX_PITCH_SETTING)) ∧
    (∃ t2, applyOptE (.withRate v) t = .ok t2 ∧
      t2.rate = some (clamp v MIN_RATE MAX_RATE) ∧
      MIN_RATE ≤ clamp v MIN_RATE MAX_RATE ∧
      clamp v MIN_RATE MAX_RATE ≤ MAX_RATE ∧
      (v < MIN_RATE → clamp v MIN_RATE MAX_RATE = MIN_RATE) ∧
      (MAX_RATE < v → clamp v MIN_RATE MAX_RATE = MAX_RATE)) ∧
    (∃ t2, applyOptE .withQuality t = .ok t2 ∧ t2.quality = some 1) := by
  have hcb : (MIN_CHANNELS : Int) ≤ MAX_CHANNELS := by
    norm_num [MIN_CHANNELS, MAX_CHANNELS]
  have hc := clamp_spec c MIN_CHANNELS MAX_CHANNELS hcb
  have hvb : MIN_VOLUME ≤ MAX_VOLUME := by
    norm_num [MIN_VOLUME, MAX_VOLUME]
  have hv := clamp_spec v MIN_VOLUME MAX_VOLUME hvb
  have hsb : MIN_SPEED ≤ MAX_SPEED := by norm_num [MIN_SPEED, MAX_SPEED]
  have hs := clamp_spec v MIN_SPEED MAX_SPEED hsb
  have hpb : MIN_PITCH_SETTING ≤ MAX_PITCH_SETTING := by
    norm_num [MIN_PITCH_SETTING, MAX_PITCH_SETTING]
  have hpi := clamp_spec v MIN_PITCH_SETTING MAX_PITCH_SETTING hpb
  have hrb : MIN_RATE ≤ MAX_RATE := by norm_num [MIN_RATE, MAX_RATE]
  have hr := clamp_spec v MIN_RATE MAX_RATE hrb
  refine ⟨⟨_, rfl, rfl, ?_, ?_, ?_, ?_⟩,
    ⟨_, rfl, rfl, hv.1, hv.2.1, hv.2.2.1, hv.2.2.2.1, hv.2.2.2.2⟩,
    ⟨_, rfl, rfl, hs.1, hs.2.1, hs.2.2.1, hs.2.2.2.1, hs.2.2.2.2⟩,
    ⟨_, rfl, rfl, hpi.1, hpi.2.1, hpi.2.2.1, hpi.2.2.2.1⟩,
    ⟨_, rfl, rfl, hr.1, hr.2.1, hr.2.2.1, hr.2.2.2.1⟩,
    ⟨_, rfl, rfl⟩⟩
  · have h1 : (1 : Int) ≤ clamp c MIN_CHANNELS MAX_CHANNELS := hc.1
    show 1 ≤ (clamp c MIN_CHANNELS MAX_CHANNELS).toNat
    omega
  · have h2 : clamp c MIN_CHANNELS MAX_CHANNELS ≤ (32 : Int) := hc.2.1
    show (clamp c MIN_CHANNELS MAX_CHANNELS).toNat ≤ 32
    omega
  · intro hlt
    rw [hc.2.2.1 hlt]
    rfl
  · intro hgt
    rw [hc.2.2.2.1 hgt]
    rfl

/-- C1: on an active transformer with a sample-aligned buffer, a successful
Write consumes exactly len(p) bytes, and a Write aborted by a sink failure
reports as consumed the accumulated byte length of every sub-chunk already
pushed to the engine, including the one whose drain failed. -/
theorem claim1_write_byte_accounting (t : Transformer) (p buf0 : List Nat)
    (ews : List Bool) (reads : List (Int × List Nat)) (sinks : List Bool)
    (hf : t.format = AudioFormatPCM ∨ t.format = AudioFormatIEEEFloat)
    (ho : t.streamOpen = true)
    (hp : p.length % SampleSize t.format = 0) :
    ((Write t p buf0 ews reads sinks).outcome = .ok →
      (Write t p buf0 ews reads sinks).consumed = p.length) ∧
    ((Write t p buf0 ews reads sinks).outcome = .errWrite →
      (Write t p buf0 ews reads sinks).consumed = SampleSize t.format *
        (((Write t p buf0 ews reads sinks).pushes.map
          fun q => q.1.length).sum)) := by
  rcases hf with hf | hf
  · rw [hf, SampleSize_pcm] at hp ⊢
    rw [Write_pcm t p buf0 ews reads sinks hf,
      writeInt16_eq t p buf0 ews reads sinks hf hp]
    by_cases hs : (bytesAsInt16Slice p).length = 0
    · have hp0 : p.length = 0 := by
        have := bytesAsInt16Slice_length p
        omega
      rw [if_pos hs]
      exact ⟨fun _ => by simp [hp0], fun hk => by simp at hk⟩
    · rw [if_neg hs, ho]
      unfold writeCore
      constructor
      · intro hok
        rw [writeLoopF_ok_consumed 2 2048 t.numChannels
          (bytesAsInt16Slice p).length (bytesAsInt16Slice p) buf0 ews reads
          sinks 0 (le_refl _) (by norm_num) hok]
        have := bytesAsInt16Slice_length p
        omega
      · intro hk
        rw [writeLoopF_errWrite_consumed 2 2048 t.numChannels
          (bytesAsInt16Slice p).length (bytesAsInt16Slice p) buf0 ews reads
          sinks 0 hk]
        omega
  · rw [hf, SampleSize_float] at hp ⊢
    rw [Write_float t p buf0 ews reads sinks hf,
      writeFloat32_eq t p buf0 ews reads sinks hf hp]
    by_cases hs : (bytesAsFloat32Slice p).length = 0
    · have hp0 : p.length = 0 := by
        have := bytesAsFloat32Slice_length p
        omega
      rw [if_pos hs]
      exact ⟨fun _ => by simp [hp0], fun hk => by simp at hk⟩
    · rw [if_neg hs, ho]
      unfold writeCore
      constructor
      · intro hok
        rw [writeLoopF_ok_consumed 4 1024 t.numChannels
          (bytesAsFloat32Slice p).length (bytesAsFloat32Slice p) buf0 ews
          reads sinks 0 (le_refl _) (by norm_num) hok]
        have := bytesAsFloat32Slice_length p
        omega
      · intro hk
        rw [writeLoopF_errWrite_consumed 4 1024 t.numChannels
          (bytesAsFloat32Slice p).length (bytesAsFloat32Slice p) buf0 ews
          reads sinks 0 hk]
        omega

theorem writeLoopF_not_invalid (ss cap nc : Nat) :
    ∀ fuel (so : Bool) samples buf ews reads sinks acc,
      (writeLoopF ss cap nc so fuel samples buf ews reads sinks
        acc).outcome ≠ .errInvalid := by
  intro fuel
  induction fuel with
  | zero =>
      intro so samples buf ews reads sinks acc
      simp [writeLoopF_zero]
  | succ n ih =>
      intro so samples buf ews reads sinks acc
      by_cases h0 : min samples.length cap = 0
      · rw [writeLoopF_break ss cap nc so n samples buf ews reads sinks
          acc h0]
        simp
      · cases so with
        | false =>
            rw [writeLoopF_closed ss cap nc n samples buf ews reads sinks
              acc h0]
            simp
        | true =>
            rw [writeLoopF_active ss cap nc n samples buf ews reads sinks
              acc h0]
            by_cases hew : scriptHead ews = true
            · simp only [hew, if_true]
              by_cases hsk : (drain buf reads sinks).sinkOk = true
              · simp only [hsk, if_true]
                exact ih true _ _ _ _ _ _
              · simp [hsk]
            · simp [hew]

theorem writeInt16_not_internal (t : Transformer) (p buf0 : List Nat)
    (ews : List Bool) (reads : List (Int × List Nat)) (sinks : List Bool) :
    (writeInt16 t p buf0 ews reads sinks).outcome ≠ .errInternal := by
  unfold writeInt16
  by_cases h1 : p.length % SampleSize t.format ≠ 0
  · simp [h1]
  · rw [if_neg (by simpa using h1)]
    by_cases h2 : (bytesAsInt16Slice p).length = 0
    · simp [h2]
    · rw [if_neg h2]
      unfold writeCore
      exact writeLoopF_not_internal _ _ _ _ _ _ _ _ _ _ _

theorem writeFloat32_not_internal (t : Transformer) (p buf0 : List Nat)
    (ews : List Bool) (reads : List (Int × List Nat)) (sinks : List Bool) :
    (writeFloat32 t p buf0 ews reads sinks).outcome ≠ .errInternal := by
  unfold writeFloat32
  by_cases h1 : p.length % SampleSize t.format ≠ 0
  · simp [h1]
  · rw [if_neg (by simpa using h1)]
    by_cases h2 : (bytesAsFloat32Slice p).length = 0
    · simp [h2]
    · rw [if_neg h2]
      unfold writeCore
      exact writeLoopF_not_internal _ _ _ _ _ _ _ _ _ _ _

theorem flushInt16_not_internal (t : Transformer) (flushOk : Bool)
    (steps : List FlushStep) (sinks : List Bool) :
    (flushInt16 t flushOk steps sinks).outcome ≠ .errInternal := by
  unfold flushInt16
  by_cases h1 : t.streamOpen = true
  · rw [if_neg (by simpa using h1)]
    by_cases h2 : flushOk = true
    · rw [if_neg (by simpa using h2)]
      exact flushLoop_not_internal _ _ _
    · simp [h2]
  · simp [h1]

theorem flushFloat32_not_internal (t : Transformer) (flushOk : Bool)
    (steps : List FlushStep) (sinks : List Bool) :
    (flushFloat32 t flushOk steps sinks).outcome ≠ .errInternal := by
  unfold flushFloat32
  by_cases h1 : t.streamOpen = true
  · rw [if_neg (by simpa using h1)]
    by_cases h2 : flushOk = true
    · rw [if_neg (by simpa using h2)]
      exact flushLoop_not_internal _ _ _
    · simp [h2]
  · simp [h1]

/-- C2 (amended): Write processes the sample view in sub-chunks of at most
streamBufferSize/sampleSize samples, pushes each sub-chunk as
size/numChannels frames, and the sub-chunks passed to the engine
concatenate exactly to the input; the engine receives every input sample
exactly once when numChannels divides both the chunk capacity and the input
sample count, while for other channel counts the trailing
size mod numChannels samples of a sub-chunk never reach the engine although
they are counted as consumed. -/
theorem claim2_subchunk_push (t : Transformer) (p buf0 : List Nat)
    (ews : List Bool) (reads : List (Int × List Nat)) (sinks : List Bool)
    (hf : t.format = AudioFormatPCM ∨ t.format = AudioFormatIEEEFloat)
    (ho : t.streamOpen = true)
    (hp : p.length % SampleSize t.format = 0) :
    (∀ q ∈ (Write t p buf0 ews reads sinks).pushes,
      0 < q.1.length ∧
      q.1.length ≤ streamBufferSize / SampleSize t.format ∧
      q.2 = q.1.length / t.numChannels) ∧
    ((Write t p buf0 ews reads sinks).outcome = .ok →
      ((Write t p buf0 ews reads sinks).pushes.map Prod.fst).flatten =
        samplesView t.format p) ∧
    (t.numChannels ∣ streamBufferSize / SampleSize t.format →
      t.numChannels ∣ (samplesView t.format p).length →
      (Write t p buf0 ews reads sinks).outcome = .ok →
      ((Write t p buf0 ews reads sinks).pushes.map
        (enginePushed t.numChannels)).flatten =
        samplesView t.format p) := by
  have key : ∀ (ss cap : Nat) (samples : List Nat), 0 < cap →
      (∀ q ∈ (writeLoopF ss cap t.numChannels true samples.length samples
        buf0 ews reads sinks 0).pushes,
        0 < q.1.length ∧ q.1.length ≤ cap ∧
        q.2 = q.1.length / t.numChannels) ∧
      ((writeLoopF ss cap t.numChannels true samples.length samples buf0
        ews reads sinks 0).outcome = .ok →
        ((writeLoopF ss cap t.numChannels true samples.length samples buf0
          ews reads sinks 0).pushes.map Prod.fst).flatten = samples) ∧
      (t.numChannels ∣ cap → t.numChannels ∣ samples.length →
        (writeLoopF ss cap t.numChannels true samples.length samples buf0
          ews reads sinks 0).outcome = .ok →
        ((writeLoopF ss cap t.numChannels true samples.length samples buf0
          ews reads sinks 0).pushes.map
          (enginePushed t.numChannels)).flatten = samples) := by
    intro ss cap samples hcap
    refine ⟨writeLoopF_pushes_shape ss cap t.numChannels samples.length
      samples buf0 ews reads sinks 0,
      writeLoopF_ok_flatten ss cap t.numChannels samples.length samples
        buf0 ews reads sinks 0 (le_refl _) hcap, ?_⟩
    intro hdc hds hok
    have hmap : (writeLoopF ss cap t.numChannels true samples.length
        samples buf0 ews reads sinks 0).pushes.map
        (enginePushed t.numChannels) =
        (writeLoopF ss cap t.numChannels true samples.length samples buf0
          ews reads sinks 0).pushes.map Prod.fst := by
      apply List.map_congr_left
      intro q hq
      have hshape := writeLoopF_pushes_shape ss cap t.numChannels
        samples.length samples buf0 ews reads sinks 0 q hq
      have hdvd := writeLoopF_pushes_dvd ss cap t.numChannels
        samples.length samples buf0 ews reads sinks 0 hdc hds q hq
      unfold enginePushed
      rw [hshape.2.2, Nat.div_mul_cancel hdvd, List.take_length]
    rw [hmap]
    exact writeLoopF_ok_flatten ss cap t.numChannels samples.length samples
      buf0 ews reads sinks 0 (le_refl _) hcap hok
  rcases hf with hfmt | hfmt
  · rw [hfmt, SampleSize_pcm] at hp
    rw [Write_pcm t p buf0 ews reads sinks hfmt,
      writeInt16_eq t p buf0 ews reads sinks hfmt hp, hfmt,
      samplesView_pcm, SampleSize_pcm]
    by_cases hs : (bytesAsInt16Slice p).length = 0
    · rw [if_pos hs]
      refine ⟨by simp, fun _ => ?_, fun _ _ _ => ?_⟩ <;>
        simp [List.length_eq_zero.mp hs]
    · rw [if_neg hs, ho]
      unfold writeCore
      exact key 2 (streamBufferSize / 2) (bytesAsInt16Slice p)
        (by norm_num [streamBufferSize])
  · rw [hfmt, SampleSize_float] at hp
    rw [Write_float t p buf0 ews reads sinks hfmt,
      writeFloat32_eq t p buf0 ews reads sinks hfmt hp, hfmt,
      samplesView_float, SampleSize_float]
    by_cases hs : (bytesAsFloat32Slice p).length = 0
    · rw [if_pos hs]
      refine ⟨by simp, fun _ => ?_, fun _ _ _ => ?_⟩ <;>
        simp [List.length_eq_zero.mp hs]
    · rw [if_neg hs, ho]
      unfold writeCore
      exact key 4 (streamBufferSize / 4) (bytesAsFloat32Slice p)
        (by norm_num [streamBufferSize])

/-- C10: with multiple channels, Write only requires the byte length to be
a multiple of the sample size, not of the frame size: any sample-aligned
buffer is accepted (no Invalid failure), each sub-chunk is forwarded as
floor(size/numChannels) frames, and on success all bytes count as
consumed. -/
theorem claim10_sample_alignment_only (t : Transformer) (p buf0 : List Nat)
    (ews : List Bool) (reads : List (Int × List Nat)) (sinks : List Bool)
    (hf : t.format = AudioFormatPCM ∨ t.format = AudioFormatIEEEFloat)
    (ho : t.streamOpen = true)
    (hnc1 : 1 ≤ t.numChannels) (hnc32 : t.numChannels ≤ 32)
    (hp : p.length % SampleSize t.format = 0) :
    (Write t p buf0 ews reads sinks).outcome ≠ .errInvalid ∧
    (∀ q ∈ (Write t p buf0 ews reads sinks).pushes,
      q.2 = q.1.length / t.numChannels) ∧
    ((Write t p buf0 ews reads sinks).outcome = .ok →
      (Write t p buf0 ews reads sinks).consumed = p.length) := by
  rcases hf with hfmt | hfmt
  · rw [hfmt, SampleSize_pcm] at hp
    rw [Write_pcm t p buf0 ews reads sinks hfmt,
      writeInt16_eq t p buf0 ews reads sinks hfmt hp]
    by_cases hs : (bytesAsInt16Slice p).length = 0
    · have hp0 : p.length = 0 := by
        have := bytesAsInt16Slice_length p
        omega
      rw [if_pos hs]
      exact ⟨by simp, by simp, fun _ => by simp [hp0]⟩
    · rw [if_neg hs, ho]
      unfold writeCore
      refine ⟨writeLoopF_not_invalid 2 2048 t.numChannels _ true _ _ _ _ _
        _, ?_, ?_⟩
      · intro q hq
        exact (writeLoopF_pushes_shape 2 2048 t.numChannels _ _ _ _ _ _ _ q
          hq).2.2
      · intro hok
        rw [writeLoopF_ok_consumed 2 2048 t.numChannels
          (bytesAsInt16Slice p).length (bytesAsInt16Slice p) buf0 ews reads
          sinks 0 (le_refl _) (by norm_num) hok]
        have := bytesAsInt16Slice_length p
        omega
  · rw [hfmt, SampleSize_float] at hp
    rw [Write_float t p buf0 ews reads sinks hfmt,
      writeFloat32_eq t p buf0 ews reads sinks hfmt hp]
    by_cases hs : (bytesAsFloat32Slice p).length = 0
    · have hp0 : p.length = 0 := by
        have := bytesAsFloat32Slice_length p
        omega
      rw [if_pos hs]
      exact ⟨by simp, by simp, fun _ => by simp [hp0]⟩
    · rw [if_neg hs, ho]
      unfold writeCore
      refine ⟨writeLoopF_not_invalid 4 1024 t.numChannels _ true _ _ _ _ _
        _, ?_, ?_⟩
      · intro q hq
        exact (writeLoopF_pushes_shape 4 1024 t.numChannels _ _ _ _ _ _ _ q
          hq).2.2
      · intro hok
        rw [writeLoopF_ok_consumed 4 1024 t.numChannels
          (bytesAsFloat32Slice p).length (bytesAsFloat32Slice p) buf0 ews
          reads sinks 0 (le_refl _) (by norm_num) hok]
        have := bytesAsFloat32Slice_length p
        omega

/-- C9: a transformer successfully built by NewTransformer has one of the
two supported formats, so the defensive Internal-error branch of Write and
Flush can never be taken. -/
theorem claim9_internal_unreachable (minSR maxSR : Int) (writerNil : Bool)
    (sampleRate format : Int) (opts : List Opt) (createOk : Bool)
    (t : Transformer) (p buf0 : List Nat) (ews : List Bool)
    (reads : List (Int × List Nat)) (sinks : List Bool) (flushOk : Bool)
    (steps : List FlushStep) (fsinks : List Bool)
    (h : NewTransformer minSR maxSR writerNil sampleRate format opts
      createOk = some t) :
    (Write t p buf0 ews reads sinks).outcome ≠ .errInternal ∧
    (Flush t flushOk steps fsinks).outcome ≠ .errInternal := by
  obtain ⟨hfmt, hor, _⟩ := NewTransformer_shape minSR maxSR writerNil
    sampleRate format opts createOk t h
  rcases hor with h1 | h1
  · have hf : t.format = AudioFormatPCM := hfmt.trans h1
    rw [Write_pcm t p buf0 ews reads sinks hf,
      Flush_pcm t flushOk steps fsinks hf]
    exact ⟨writeInt16_not_internal t p buf0 ews reads sinks,
      flushInt16_not_internal t flushOk steps fsinks⟩
  · have hf : t.format = AudioFormatIEEEFloat := hfmt.trans h1
    rw [Write_float t p buf0 ews reads sinks hf,
      Flush_float t flushOk steps fsinks hf]
    exact ⟨writeFloat32_not_internal t p buf0 ews reads sinks,
      flushFloat32_not_internal t flushOk steps fsinks⟩

/-- C3 (amended): Flush calls the engine flush first and an engine failure
aborts with an Engine failure and no sink write; the drain loop allocates a
buffer of exactly `available` entries per iteration and requests that many
from the engine; no input is pushed.  The batch serialized to the sink in
little-endian order is buffer[0:framesRead], which is exactly the frames
read only in the mono case: for numChannels > 1 only framesRead samples of
the framesRead * numChannels read samples reach the sink.  A sink failure
aborts immediately after its single failed write. -/
theorem claim3_flush_drain (t : Transformer)
    (hf : t.format = AudioFormatPCM ∨ t.format = AudioFormatIEEEFloat)
    (ho : t.streamOpen = true) :
    (∀ flushOk steps sinks,
      (Flush t flushOk steps sinks).pushes = []) ∧
    (∀ steps sinks,
      Flush t false steps sinks = ⟨.errSonic, [], [], [], []⟩) ∧
    (∀ steps, (∀ s ∈ steps, StepConforms 1 s) → t.numChannels = 1 →
      Flush t true steps [] =
        ⟨.ok, (activePrefix steps).map (fun s => s.avail.toNat),
          (activePrefix steps).map (fun s => s.avail.toNat),
          (activePrefix steps).map (fun s => serList
            (if t.format = AudioFormatPCM then le16 else le32) s.data),
          []⟩) ∧
    (∀ s rest srest, 0 < s.avail → 0 < s.nRead →
      (Flush t true (s :: rest) (false :: srest)).outcome = .errWrite ∧
      (Flush t true (s :: rest) (false :: srest)).sinkOut.length = 1) := by
  have hser : ∀ (ser : Nat → List Nat) (fl : Transformer → Bool →
      List FlushStep → List Bool → FlushResult),
      (∀ flushOk steps sinks, fl t flushOk steps sinks =
        if ¬ t.streamOpen then ⟨.panicNil, [], [], [], []⟩
        else if ¬ flushOk then ⟨.errSonic, [], [], [], []⟩
        else flushLoop ser steps sinks) →
      (∀ flushOk steps sinks, (fl t flushOk steps sinks).pushes = []) ∧
      (∀ steps sinks, fl t false steps sinks =
        ⟨.errSonic, [], [], [], []⟩) ∧
      (∀ steps, (∀ s ∈ steps, StepConforms 1 s) →
        fl t true steps [] =
          ⟨.ok, (activePrefix steps).map (fun s => s.avail.toNat),
            (activePrefix steps).map (fun s => s.avail.toNat),
            (activePrefix steps).map (fun s => serList ser s.data), []⟩) ∧
      (∀ s rest srest, 0 < s.avail → 0 < s.nRead →
        (fl t true (s :: rest) (false :: srest)).outcome = .errWrite ∧
        (fl t true (s :: rest) (false :: srest)).sinkOut.length = 1) := by
    intro ser fl hfl
    have hopen : ¬ ¬ t.streamOpen = true := by simp [ho]
    refine ⟨?_, ?_, ?_, ?_⟩
    · intro flushOk steps sinks
      rw [hfl]
      by_cases h1 : ¬ t.streamOpen = true
      · rw [if_pos h1]
      · rw [if_neg h1]
        by_cases h2 : ¬ flushOk = true
        · rw [if_pos h2]
        · rw [if_neg h2]
          exact flushLoop_pushes ser steps sinks
    · intro steps sinks
      rw [hfl, if_neg hopen, if_pos (by simp)]
    · intro steps hconf
      rw [hfl, if_neg hopen, if_neg (by simp)]
      obtain ⟨io, ia, ir, is'⟩ := flushLoop_conform_mono ser steps hconf
      have hpu := flushLoop_pushes ser steps []
      cases hflr : flushLoop ser steps [] with
      | mk outcome allocs readReqs sinkOut pushes =>
          rw [hflr] at io ia ir is' hpu
          simp only at io ia ir is' hpu
          rw [io, ia, ir, is', hpu]
    · intro s rest srest ha hn
      constructor
      · rw [hfl, if_neg hopen, if_neg (by simp)]
        exact (flushLoop_sink_abort ser s rest srest ha hn).1
      · rw [hfl, if_neg hopen, if_neg (by simp)]
        exact (flushLoop_sink_abort ser s rest srest ha hn).2
  rcases hf with hfmt | hfmt
  · have hd : ∀ flushOk steps sinks, Flush t flushOk steps sinks =
        if ¬ t.streamOpen then ⟨.panicNil, [], [], [], []⟩
        else if ¬ flushOk then ⟨.errSonic, [], [], [], []⟩
        else flushLoop le16 steps sinks := by
      intro flushOk steps sinks
      rw [Flush_pcm t flushOk steps sinks hfmt]
      rfl
    have h := hser le16 Flush hd
    rw [hfmt]
    simp only [if_pos rfl]
    exact ⟨h.1, h.2.1, fun steps hc _ => h.2.2.1 steps hc, h.2.2.2⟩
  · have hd : ∀ flushOk steps sinks, Flush t flushOk steps sinks =
        if ¬ t.streamOpen then ⟨.panicNil, [], [], [], []⟩
        else if ¬ flushOk then ⟨.errSonic, [], [], [], []⟩
        else flushLoop le32 steps sinks := by
      intro flushOk steps sinks
      rw [Flush_float t flushOk steps sinks hfmt]
      rfl
    have h := hser le32 Flush hd
    rw [hfmt]
    have hne : AudioFormatIEEEFloat ≠ AudioFormatPCM := by decide
    simp only [if_neg hne]
    exact ⟨h.1, h.2.1, fun steps hc _ => h.2.2.1 steps hc, h.2.2.2⟩

/-- C4 (amended): the code contains no invalid-state error and no nil
check in Write or Flush: after Close, a Write with a non-empty
sample-aligned buffer and any Flush dereference the destroyed stream
handle (a runtime panic, not an error return), while a Write with an empty
buffer still returns success with 0 bytes. -/
theorem claim4_after_close (t : Transformer) (p buf0 : List Nat)
    (ews : List Bool) (reads : List (Int × List Nat)) (sinks : List Bool)
    (flushOk : Bool) (steps : List FlushStep) (fsinks : List Bool)
    (hf : t.format = AudioFormatPCM ∨ t.format = AudioFormatIEEEFloat) :
    (p.length % SampleSize t.format = 0 → p ≠ [] →
      (Write (Close t).t p buf0 ews reads sinks).outcome = .panicNil ∧
      isErrorReturn
        (Write (Close t).t p buf0 ews reads sinks).outcome = false) ∧
    (Flush (Close t).t flushOk steps fsinks).outcome = .panicNil ∧
    (p = [] → Write (Close t).t p buf0 ews reads sinks =
      ⟨0, .ok, [], []⟩) := by
  have hcf : (Close t).t.format = t.format := rfl
  have hco : (Close t).t.streamOpen = false := rfl
  rcases hf with hfmt | hfmt
  · have hcf2 : (Close t).t.format = AudioFormatPCM := hcf.trans hfmt
    refine ⟨?_, ?_, ?_⟩
    · intro hp hne
      rw [hfmt] at hp
      rw [SampleSize_pcm] at hp
      have hres : Write (Close t).t p buf0 ews reads sinks =
          writeCore 2 2048 (Close t).t.numChannels false
            (bytesAsInt16Slice p) buf0 ews reads sinks := by
        rw [Write_pcm (Close t).t p buf0 ews reads sinks hcf2,
          writeInt16_eq (Close t).t p buf0 ews reads sinks hcf2 hp, hco]
        rw [if_neg ?hs]
        case hs =>
          rw [bytesAsInt16Slice_length p]
          have : p.length ≠ 0 := fun hz =>
            hne (List.length_eq_zero.mp hz)
          omega
      rw [hres]
      unfold writeCore
      rw [writeLoopF_closed_run 2 2048 (Close t).t.numChannels
        (bytesAsInt16Slice p).length (bytesAsInt16Slice p) buf0 ews reads
        sinks 0 ?hpos (le_refl _) (by norm_num)]
      · exact ⟨rfl, rfl⟩
      case hpos =>
        rw [bytesAsInt16Slice_length p]
        have : p.length ≠ 0 := fun hz => hne (List.length_eq_zero.mp hz)
        omega
    · rw [Flush_pcm (Close t).t flushOk steps fsinks hcf2]
      unfold flushInt16
      rw [hco]
      simp
    · intro hpn
      subst hpn
      rw [Write_pcm (Close t).t [] buf0 ews reads sinks hcf2]
      simp [writeInt16, hcf2, SampleSize, AudioFormatPCM,
        AudioFormatIEEEFloat, bytesAsInt16Slice]
  · have hcf2 : (Close t).t.format = AudioFormatIEEEFloat := hcf.trans hfmt
    refine ⟨?_, ?_, ?_⟩
    · intro hp hne
      rw [hfmt] at hp
      rw [SampleSize_float] at hp
      have hres : Write (Close t).t p buf0 ews reads sinks =
          writeCore 4 1024 (Close t).t.numChannels false
            (bytesAsFloat32Slice p) buf0 ews reads sinks := by
        rw [Write_float (Close t).t p buf0 ews reads sinks hcf2,
          writeFloat32_eq (Close t).t p buf0 ews reads sinks hcf2 hp, hco]
        rw [if_neg ?hs]
        case hs =>
          rw [bytesAsFloat32Slice_length p]
          have h4 : 4 ≤ p.length := by
            have : p.length ≠ 0 := fun hz =>
              hne (List.length_eq_zero.mp hz)
            omega
          omega
      rw [hres]
      unfold writeCore
      rw [writeLoopF_closed_run 4 1024 (Close t).t.numChannels
        (bytesAsFloat32Slice p).length (bytesAsFloat32Slice p) buf0 ews
        reads sinks 0 ?hpos (le_refl _) (by norm_num)]
      · exact ⟨rfl, rfl⟩
      case hpos =>
        rw [bytesAsFloat32Slice_length p]
        have : p.length ≠ 0 := fun hz => hne (List.length_eq_zero.mp hz)
        omega
    · rw [Flush_float (Close t).t flushOk steps fsinks hcf2]
      unfold flushFloat32
      rw [hco]
      simp
    · intro hpn
      subst hpn
      rw [Write_float (Close t).t [] buf0 ews reads sinks hcf2]
      simp [writeFloat32, hcf2, SampleSize, AudioFormatPCM,
        AudioFormatIEEEFloat, bytesAsFloat32Slice]

/-- Counterexample to C2 as stated: on a two-channel transformer built by
NewTransformer, a successful Write of three samples (six bytes, sample
aligned) pushes only one frame, so the engine receives samples 1 and 2
while sample 3 is skipped although all six bytes are counted consumed —
not every input sample is pushed for every numChannels in [1, 32]. -/
theorem claim2_counterexample :
    NewTransformer 8000 48000 false 44100 AudioFormatPCM
      [Opt.withChannels 2] true = some tStereo ∧
    bytesAsInt16Slice [1, 0, 2, 0, 3, 0] = [1, 2, 3] ∧
    (Write tStereo [1, 0, 2, 0, 3, 0] [] [] [] []).outcome = .ok ∧
    (Write tStereo [1, 0, 2, 0, 3, 0] [] [] [] []).consumed = 6 ∧
    ((Write tStereo [1, 0, 2, 0, 3, 0] [] [] [] []).pushes.map
      (enginePushed 2)).flatten = [1, 2] ∧
    ¬ ((Write tStereo [1, 0, 2, 0, 3, 0] [] [] [] []).pushes.map
      (enginePushed 2)).flatten =
        bytesAsInt16Slice [1, 0, 2, 0, 3, 0] := by
  refine ⟨by decide, by decide, by decide, by decide, by decide, by decide⟩

/-- Counterexample to C3 as stated: on a two-channel transformer, one flush
iteration with one frame available reads one frame (two samples, 5 and 6,
per the engine read contract) but serializes only sample 5 to the sink —
not all numChannels samples of each frame read. -/
theorem claim3_counterexample :
    tStereo.numChannels = 2 ∧
    StepConforms 2 ⟨1, 1, [5, 6]⟩ ∧
    (Flush tStereo true [⟨1, 1, [5, 6]⟩] []).outcome = .ok ∧
    (Flush tStereo true [⟨1, 1, [5, 6]⟩] []).sinkOut = [[5, 0]] ∧
    serList le16 [5, 6] = [5, 0, 6, 0] ∧
    ¬ (Flush tStereo true [⟨1, 1, [5, 6]⟩] []).sinkOut =
      [[5, 0, 6, 0]] := by
  exact ⟨rfl, ⟨rfl, rfl⟩, by decide, by decide, rfl, by decide⟩

/-- Counterexample to C4 as stated: after Close, a Write of two aligned
bytes and a Flush do not return an invalid-state error value — they reach
the nil stream handle dereference, which is not an error return at all. -/
theorem claim4_counterexample :
    (Close tMono).t.streamOpen = false ∧
    (Write (Close tMono).t [0, 0] [] [] [] []).outcome = .panicNil ∧
    isErrorReturn
      (Write (Close tMono).t [0, 0] [] [] [] []).outcome = false ∧
    (Flush (Close tMono).t true [] []).outcome = .panicNil := by
  refine ⟨rfl, by decide, by decide, by decide⟩

/-- Witness for C1 at a concrete input: one 16-bit sample written on the
mono transformer with all collaborators succeeding consumes both bytes. -/
theorem claim1_witness :
    (Write tMono [1, 0] [] [] [] []).outcome = .ok ∧
    (Write tMono [1, 0] [] [] [] []).consumed = 2 := by
  have h := claim1_write_byte_accounting tMono [1, 0] [] [] [] []
    (Or.inl rfl) rfl (by decide)
  exact ⟨by decide, h.1 (by decide)⟩

/-- Witness for the amended C2 at a concrete input: on the mono
transformer every sample of a two-sample write reaches the engine. -/
theorem claim2_witness :
    ((Write tMono [1, 0, 2, 0] [] [] [] []).pushes.map
      (enginePushed tMono.numChannels)).flatten =
      samplesView tMono.format [1, 0, 2, 0] := by
  have h := claim2_subchunk_push tMono [1, 0, 2, 0] [] [] [] []
    (Or.inl rfl) rfl (by decide)
  exact h.2.2 (by decide) (by decide) (by decide)

/-- Witness for the amended C3 at a concrete input: a mono flush of one
iteration with two frames available serializes exactly the two frames
read, little-endian. -/
theorem claim3_witness :
    Flush tMono true [⟨2, 2, [7, 8]⟩] [] =
      ⟨.ok, [2], [2], [[7, 0, 8, 0]], []⟩ := by
  have hconf : ∀ s ∈ ([⟨2, 2, [7, 8]⟩] : List FlushStep),
      StepConforms 1 s := by
    intro s hs
    rw [List.mem_singleton] at hs
    subst hs
    exact ⟨rfl, rfl⟩
  have h := (claim3_flush_drain tMono (Or.inl rfl) rfl).2.2.1
    [⟨2, 2, [7, 8]⟩] hconf rfl
  rw [h]
  decide

/-- Witness for the amended C4 at a concrete input: Write of two bytes and
Flush on the closed mono transformer reach the nil dereference. -/
theorem claim4_witness :
    (Write (Close tMono).t [3, 1] [] [] [] []).outcome = .panicNil ∧
    (Flush (Close tMono).t false [] []).outcome = .panicNil := by
  have h := claim4_after_close tMono [3, 1] [] [] [] [] false [] []
    (Or.inl rfl)
  exact ⟨(h.1 (by decide) (by decide)).1, h.2.1⟩

/-- Witness for C6 at a concrete input: a single odd byte is rejected with
ErrInvalid and no interaction. -/
theorem claim6_witness :
    Write tMono [9] [] [] [] [] = ⟨0, .errInvalid, [], []⟩ :=
  claim6_misaligned_rejected tMono [9] [] [] [] [] (Or.inl rfl)
    (by decide)

/-- Witness for C7 at a concrete input: an empty write on the mono
transformer returns success, 0 bytes, no interaction. -/
theorem claim7_witness :
    Write tMono [] [] [] [] [] = ⟨0, .ok, [], []⟩ :=
  claim7_empty_write tMono [] [] [] [] (Or.inl rfl) rfl

/-- Witness for C8 at concrete inputs: a speed of -5 is stored as
MIN_SPEED and a channel count of 33 is stored as 32. -/
theorem claim8_witness :
    (∃ t2, applyOptE (Opt.withSpeed (-5)) tMono = .ok t2 ∧
      t2.speed = some MIN_SPEED) ∧
    (∃ t3, applyOptE (Opt.withChannels 33) tMono = .ok t3 ∧
      t3.numChannels = 32) := by
  obtain ⟨⟨t3, he3, _, _, _, _, habove⟩, _,
    ⟨t2, he2, hst, _, _, hbelow, _, _⟩, _, _, _⟩ :=
    claim8_setters_clamp tMono 33 (-5)
  refine ⟨⟨t2, he2, ?_⟩, ⟨t3, he3, ?_⟩⟩
  · rw [hst, hbelow (by norm_num [MIN_SPEED])]
  · exact habove (by norm_num [MAX_CHANNELS])

/-- Witness for C9 at a concrete input: the transformer built by
NewTransformer with defaults never reports the Internal error from Write
or Flush. -/
theorem claim9_witness :
    (Write tMono [1, 0] [] [] [] []).outcome ≠ .errInternal ∧
    (Flush tMono true [] []).outcome ≠ .errInternal :=
  claim9_internal_unreachable 8000 48000 false 44100 AudioFormatPCM []
    true tMono [1, 0] [] [] [] [] true [] [] (by decide)

/-- Witness for C10 at a concrete input: three samples on the two-channel
transformer are not a whole number of frames yet the write is accepted and
all six bytes count as consumed. -/
theorem claim10_witness :
    (Write tStereo [1, 0, 2, 0, 3, 0] [] [] [] []).outcome ≠
      .errInvalid ∧
    (Write tStereo [1, 0, 2, 0, 3, 0] [] [] [] []).consumed = 6 := by
  have h := claim10_sample_alignment_only tStereo [1, 0, 2, 0, 3, 0] []
    [] [] [] (Or.inl rfl) rfl (by decide) (by decide) (by decide)
  exact ⟨h.1, h.2.2 (by decide)⟩

end Sonic
